import Mathlib

/-!
Verification of the time-stepping orchestrator `DynamicalCore` of
`pace/fv3core/stencils/fv_dynamics.py`.

The orchestrator sequences external collaborators (acoustic stepper, tracer
advection, Lagrangian-to-Eulerian remap, hyperdiffusion, negative-tracer
adjustment, cube-to-latlon interpolation).  Those collaborators are opaque in
the source file under study, so they are modelled here either as trace events
(for temporal claims about which stage runs when) or as opaque function
parameters (for frame claims about which state fields a stage may touch).
Floating-point scalars of the source are modelled as rationals, and the
transcendental `log` of the `pfull` precompute over the reals.
-/

namespace FvDyn

/-- Hard-coded tracer count from the source: `NQ = 8`. -/
def NQ : Nat := 8

/-- The configuration fields of `DynamicalCoreConfig` that
`fv_dynamics.py` reads.  Float-valued namelist entries (`consv_te`, `tau`)
are modelled as rationals. -/
structure Config where
  k_split : Nat
  n_split : Nat
  consv_te : ℚ
  hydrostatic : Bool
  tau : ℚ
  rf_fast : Bool
  adiabatic : Bool
  kord_tm : Int
  nf_omega : Int
  nwat : Nat
  moist_phys : Bool
  z_tracer : Bool
  inline_q : Bool
  check_negative : Bool
  deriving DecidableEq, Repr

/-- Damping coefficients: process-wide grid metadata.  The orchestrator only
reads `da_min` from it (`self._da_min = damping_coefficients.da_min`). -/
structure DampingCoefficients where
  da_min : ℚ
  deriving DecidableEq, Repr

/-- Observable actions of the orchestrator, in program order.  Each event is
one call site in `fv_dynamics.py`:
`fvSetup` = `self._fv_setup_stencil(...)`,
`ptAdjust` = `self._pt_adjust_stencil(...)`,
`copyDelpToDp1` = `self._copy_stencil(state.delp, self._dp1)`,
`acousticDyn n_map` = `self.acoustic_dynamics(state, timestep, n_map)`,
`tracerAdv` = `self.tracer_advection(...)`,
`remap b` = `self._lagrangian_to_eulerian_obj(..., last_step = b, ...)`,
`postRemap d` = `self.post_remap(state, ..., da_min = d)`,
`wrapup` = `self.wrapup(state, ...)`. -/
inductive Event where
  | fvSetup
  | ptAdjust
  | copyDelpToDp1
  | acousticDyn (n_map : Nat)
  | tracerAdv
  | remap (last_step : Bool)
  | postRemap (da_min : ℚ)
  | wrapup
  deriving DecidableEq, Repr

/-- `DynamicalCore.compute_preamble`, as the list of stage events it executes
together with the error it raises, if any.  Mirrors the source order:
the hydrostatic check comes first; then `fv_setup` runs unconditionally;
then the `consv_te`, `rf_fast`/`tau` and `adiabatic`/`kord_tm` checks;
the `pt_adjust` stencil runs only if none of them raised. -/
def compute_preamble (c : Config) : List Event × Option String :=
  if c.hydrostatic then
    ([], some "Hydrostatic is not implemented")
  else
    let evs := [Event.fvSetup]
    if c.consv_te > 0 then
      (evs, some "compute total energy is not implemented")
    else if c.rf_fast = false ∧ c.tau ≠ 0 then
      (evs, some "Rayleigh_Super, called when rf_fast=False and tau !=0")
    else if c.adiabatic = true ∧ c.kord_tm > 0 then
      (evs, some "unimplemented namelist options adiabatic with positive kord_tm")
    else
      (evs ++ [Event.ptAdjust], none)

/-- `compute_preamble` raises no error: none of the four unsupported
configurations is requested. -/
def preambleOk (c : Config) : Prop :=
  c.hydrostatic = false ∧ ¬ c.consv_te > 0 ∧
    ¬ (c.rf_fast = false ∧ c.tau ≠ 0) ∧ ¬ (c.adiabatic = true ∧ c.kord_tm > 0)

instance (c : Config) : Decidable (preambleOk c) := by
  unfold preambleOk; infer_instance

/-- `DynamicalCore._dyn`: copy `delp` into `dp1`, run the acoustic stepper
(with 1-based outer index `n_map`), then tracer advection if `z_tracer`. -/
def dynEvents (c : Config) (n_map : Nat) : List Event :=
  [Event.copyDelpToDp1, Event.acousticDyn n_map] ++
    (if c.z_tracer then [Event.tracerAdv] else [])

/-- The `last_step` flag of the outer loop of `_compute`:
`last_step = k_split == self._k_split - 1` where the loop variable
(here `k`, 0-based) runs over `range(self._k_split)`. -/
def last_step (c : Config) (k : Nat) : Bool :=
  k == c.k_split - 1

/-- One iteration of the outer split loop of `_compute` (0-based index `k`):
`_dyn` with `n_map = k + 1`; then, only when the vertical extent
`npz = grid_indexing.domain[2]` exceeds 4, the Lagrangian-to-Eulerian remap
with the `last_step` flag, followed on the last step by `post_remap` with
`da_min` obtained through `self._get_da_min()`. -/
def iterEvents (c : Config) (npz : Nat) (da_min : ℚ) (k : Nat) : List Event :=
  dynEvents c (k + 1) ++
    (if 4 < npz then
      Event.remap (last_step c k) ::
        (if last_step c k then [Event.postRemap da_min] else [])
    else [])

/-- The events of the whole outer loop `for k_split in range(self._k_split)`. -/
def loopEvents (c : Config) (npz : Nat) (da_min : ℚ) : List Event :=
  (List.range c.k_split).flatMap (iterEvents c npz da_min)

/-- `DynamicalCore._compute`: the preamble, then the outer loop, then
`wrapup`, as events.  If the preamble raises then the call aborts: nothing
after the raising point executes. -/
def computeResult (c : Config) (npz : Nat) (da_min : ℚ) :
    List Event × Option String :=
  match compute_preamble c with
  | (evs, some e) => (evs, some e)
  | (evs, none) => (evs ++ loopEvents c npz da_min ++ [Event.wrapup], none)

/-- The prognostic-state fields of `DycoreState` that `fv_dynamics.py`
touches, with an abstract field type `α` (each field is an opaque grid). -/
structure DycoreState (α : Type) where
  u : α
  v : α
  w : α
  delz : α
  ua : α
  va : α
  uc : α
  vc : α
  qvapor : α
  qliquid : α
  qrain : α
  qsnow : α
  qice : α
  qgraupel : α
  qcld : α
  q_con : α
  pt : α
  delp : α
  pe : α
  pk : α
  peln : α
  pkz : α
  phis : α
  omga : α
  ps : α
  mfxd : α
  mfyd : α
  cxd : α
  cyd : α
  deriving DecidableEq, Repr

/-- One invocation of the checkpointer: the tag string and exactly the nine
keyword fields passed at the call site in `_checkpoint_fvdynamics`. -/
structure CheckpointCall (α : Type) where
  tag : String
  u : α
  v : α
  w : α
  delz : α
  ua : α
  va : α
  uc : α
  vc : α
  qvapor : α
  deriving DecidableEq, Repr

/-- The argument record of the call
`self.checkpointer(f"FVDynamics-{tag}", u=state.u, ..., qvapor=state.qvapor)`. -/
def snapshot {α : Type} (tag : String) (s : DycoreState α) : CheckpointCall α :=
  { tag := "FVDynamics-" ++ tag
    u := s.u
    v := s.v
    w := s.w
    delz := s.delz
    ua := s.ua
    va := s.va
    uc := s.uc
    vc := s.vc
    qvapor := s.qvapor }

/-- `DynamicalCore._checkpoint_fvdynamics`: calls the checkpointer exactly
when `self.call_checkpointer` holds (a real sink was given at construction),
and is a no-op otherwise. -/
def checkpoint_fvdynamics {α : Type} (call_checkpointer : Bool)
    (s : DycoreState α) (tag : String) : List (CheckpointCall α) :=
  if call_checkpointer then [snapshot tag s] else []

/-- `DynamicalCore.step_dynamics`, with `_compute` abstracted as an arbitrary
state transformer `compute`: emit the "In" checkpoint on the incoming state,
run `_compute`, emit the "Out" checkpoint on the resulting state.  Returns
the list of checkpointer invocations and the final state. -/
def step_dynamics {α : Type} (call_checkpointer : Bool)
    (compute : DycoreState α → DycoreState α) (s : DycoreState α) :
    List (CheckpointCall α) × DycoreState α :=
  let calls_in := checkpoint_fvdynamics call_checkpointer s "In"
  let s1 := compute s
  let calls_out := checkpoint_fvdynamics call_checkpointer s1 "Out"
  (calls_in ++ calls_out, s1)

/-- Result fields of the negative-tracer adjustment: exactly the eleven
state fields the orchestrator passes to
`self._adjust_tracer_mixing_ratio(...)` in `wrapup`, each of which the
opaque collaborator may update in place. -/
structure NegAdjResult (α : Type) where
  qvapor : α
  qliquid : α
  qrain : α
  qsnow : α
  qice : α
  qgraupel : α
  qcld : α
  pt : α
  delp : α
  delz : α
  peln : α

/-- `DynamicalCore.wrapup`, with the two collaborators as parameters:
`negAdj` models `self._adjust_tracer_mixing_ratio`, receiving exactly the
eleven fields the orchestrator passes and returning their updated values;
`c2l` models `self._cubed_to_latlon(state.u, state.v, state.ua, state.va)`.
Modelled from the spec: the body of `CubedToLatLon` is not among the source
files under study, and the spec states that it recomputes the wind
diagnostics `ua`, `va` from the cubed-sphere wind components `u`, `v`, so
`c2l` receives the four passed fields and returns the new `(ua, va)`. -/
def wrapup {α : Type}
    (negAdj : α → α → α → α → α → α → α → α → α → α → α → NegAdjResult α)
    (c2l : α → α → α → α → α × α) (s : DycoreState α) : DycoreState α :=
  let r := negAdj s.qvapor s.qliquid s.qrain s.qsnow s.qice s.qgraupel s.qcld
    s.pt s.delp s.delz s.peln
  let s1 : DycoreState α :=
    { s with
      qvapor := r.qvapor
      qliquid := r.qliquid
      qrain := r.qrain
      qsnow := r.qsnow
      qice := r.qice
      qgraupel := r.qgraupel
      qcld := r.qcld
      pt := r.pt
      delp := r.delp
      delz := r.delz
      peln := r.peln }
  let uv := c2l s1.u s1.v s1.ua s1.va
  { s1 with ua := uv.1, va := uv.2 }

/-- The `pt_adjust` stencil, pointwise over an abstract cell index `ι` with
rational cell values: `pt = pt * (1. + dp1) * (1. - q_con) / pkz`. -/
def pt_adjust {ι : Type} (pkz dp1 q_con pt : ι → ℚ) : ι → ℚ :=
  fun i => pt i * (1 + dp1 i) * (1 - q_con i) / pkz i

/-- The `init_pfull` stencil over the reals: for vertical level `k`,
`ph1 = ak[k] + bk[k] * p_ref`, `ph2 = ak[k+1] + bk[k+1] * p_ref`,
`pfull[k] = (ph2 - ph1) / log(ph2 / ph1)` with the natural logarithm. -/
noncomputable def init_pfull (ak bk : Nat → ℝ) (p_ref : ℝ) (k : Nat) : ℝ :=
  let ph1 := ak k + bk k * p_ref
  let ph2 := ak (k + 1) + bk (k + 1) * p_ref
  (ph2 - ph1) / Real.log (ph2 / ph1)

/-- Construction-time actions of `DynamicalCore.__init__`, in program order:
each event is one collaborator/stencil construction or allocation performed
after the two `assert` statements. -/
inductive InitEvent where
  | buildTracerTransport
  | allocTemporaries
  | buildTracerAdvection
  | computePfull
  | buildFvSetupStencil
  | buildPtAdjustStencil
  | buildSetOmegaStencil
  | buildCopyStencil
  | buildAcousticDynamics
  | buildHyperdiffusion
  | buildCubedToLatLon
  | buildNegTracerAdjuster
  | buildLagToEul
  | buildOmegaHaloUpdater
  deriving DecidableEq, Repr

/-- The constructions performed between the two asserts and the
`inline_q` guard at line 304 of the source. -/
def initEventsBeforeGuard : List InitEvent :=
  [InitEvent.buildTracerTransport, InitEvent.allocTemporaries,
   InitEvent.buildTracerAdvection, InitEvent.computePfull,
   InitEvent.buildFvSetupStencil, InitEvent.buildPtAdjustStencil,
   InitEvent.buildSetOmegaStencil, InitEvent.buildCopyStencil,
   InitEvent.buildAcousticDynamics, InitEvent.buildHyperdiffusion,
   InitEvent.buildCubedToLatLon]

/-- `DynamicalCore.__init__` as the list of construction events it performs
and the error it raises, if any.  Mirrors the source order:
`assert config.moist_phys`, then `assert config.nwat == 6`, then the
collaborator and stencil constructions, then the guard
`if not (not self.config.inline_q and NQ != 0): raise NotImplementedError`,
then the remaining constructions. -/
def DynamicalCore.init (c : Config) : List InitEvent × Option String :=
  if c.moist_phys = false then
    ([], some "fvsetup is only implemented for moist_phys=true")
  else if c.nwat ≠ 6 then
    ([], some "Only nwat=6 has been implemented and tested")
  else if ¬ (c.inline_q = false ∧ NQ ≠ 0) then
    (initEventsBeforeGuard, some "tracer_2d not implemented, turn on z_tracer")
  else
    (initEventsBeforeGuard ++
      [InitEvent.buildNegTracerAdjuster, InitEvent.buildLagToEul,
       InitEvent.buildOmegaHaloUpdater], none)

/-! ## Helper lemmas -/

/-- A configuration passing every preamble check, used as a concrete base
point for witnesses: `k_split = 2`, nothing unsupported requested. -/
def cfgOk : Config :=
  { k_split := 2
    n_split := 1
    consv_te := 0
    hydrostatic := false
    tau := 0
    rf_fast := true
    adiabatic := false
    kord_tm := -9
    nf_omega := 1
    nwat := 6
    moist_phys := true
    z_tracer := true
    inline_q := false
    check_negative := true }

theorem compute_preamble_of_ok {c : Config} (h : preambleOk c) :
    compute_preamble c = ([Event.fvSetup, Event.ptAdjust], none) := by
  obtain ⟨h1, h2, h3, h4⟩ := h
  unfold compute_preamble
  rw [h1]
  simp [h2, h3, h4]

theorem computeResult_of_ok {c : Config} (h : preambleOk c) (npz : Nat) (d : ℚ) :
    computeResult c npz d =
      ([Event.fvSetup, Event.ptAdjust] ++ loopEvents c npz d ++ [Event.wrapup],
        none) := by
  unfold computeResult
  rw [compute_preamble_of_ok h]

theorem mem_iterEvents {e : Event} {c : Config} {npz : Nat} {d : ℚ} {k : Nat} :
    e ∈ iterEvents c npz d k ↔
      e = Event.copyDelpToDp1 ∨ e = Event.acousticDyn (k + 1) ∨
        (c.z_tracer = true ∧ e = Event.tracerAdv) ∨
        (4 < npz ∧ e = Event.remap (last_step c k)) ∨
        (4 < npz ∧ last_step c k = true ∧ e = Event.postRemap d) := by
  unfold iterEvents dynEvents
  rcases Nat.lt_or_ge 4 npz with hnpz | hnpz
  · rw [if_pos hnpz]
    by_cases hz : c.z_tracer = true <;> by_cases hls : last_step c k = true <;>
      simp [hz, hls, hnpz]
  · have hnpz' : ¬ 4 < npz := Nat.not_lt.mpr hnpz
    rw [if_neg hnpz']
    by_cases hz : c.z_tracer = true <;> simp [hz, hnpz']

theorem mem_loopEvents {e : Event} {c : Config} {npz : Nat} {d : ℚ} :
    e ∈ loopEvents c npz d ↔ ∃ k, k < c.k_split ∧ e ∈ iterEvents c npz d k := by
  simp [loopEvents, List.mem_flatMap, List.mem_range]

theorem wrapup_not_mem_loopEvents {c : Config} {npz : Nat} {d : ℚ} :
    Event.wrapup ∉ loopEvents c npz d := by
  rw [mem_loopEvents]
  rintro ⟨k, -, hk⟩
  rw [mem_iterEvents] at hk
  rcases hk with h | h | ⟨-, h⟩ | ⟨-, h⟩ | ⟨-, -, h⟩ <;> exact Event.noConfusion h

theorem preamble_events_cases (c : Config) :
    (compute_preamble c).1 = [] ∨ (compute_preamble c).1 = [Event.fvSetup] ∨
      (compute_preamble c).1 = [Event.fvSetup, Event.ptAdjust] := by
  unfold compute_preamble
  split_ifs <;> simp

theorem preamble_events_only (c : Config) {e : Event}
    (hmem : e ∈ (compute_preamble c).1) :
    e = Event.fvSetup ∨ e = Event.ptAdjust := by
  rcases preamble_events_cases c with h | h | h <;> rw [h] at hmem <;> simp_all

theorem computeResult_events_cases (c : Config) (npz : Nat) (d : ℚ) :
    (computeResult c npz d).1 = (compute_preamble c).1 ∨
      (computeResult c npz d).1 =
        (compute_preamble c).1 ++ loopEvents c npz d ++ [Event.wrapup] := by
  unfold computeResult
  rcases hp : compute_preamble c with ⟨evs, err⟩
  rcases err with - | e <;> simp [hp]

theorem last_step_iff (c : Config) (k : Nat) :
    last_step c k = true ↔ k = c.k_split - 1 := by
  simp [last_step]

theorem postRemap_not_mem_early {c : Config} {npz : Nat} {d q : ℚ} {k : Nat}
    (hk : k < c.k_split - 1) : Event.postRemap q ∉ iterEvents c npz d k := by
  rw [mem_iterEvents]
  rintro (h | h | ⟨-, h⟩ | ⟨-, h⟩ | ⟨-, hls, -⟩)
  · exact Event.noConfusion h
  · exact Event.noConfusion h
  · exact Event.noConfusion h
  · exact Event.noConfusion h
  · rw [last_step_iff] at hls
    omega

/-- A concrete damping-coefficients record for witnesses. -/
def dampOk : DampingCoefficients := ⟨1⟩

theorem wrapup_trace_once (c : Config) (npz : Nat) (d : ℚ)
    (hok : preambleOk c) :
    (computeResult c npz d).1
        = ([Event.fvSetup, Event.ptAdjust] ++ loopEvents c npz d) ++
          [Event.wrapup] ∧
      Event.wrapup ∉ [Event.fvSetup, Event.ptAdjust] ++ loopEvents c npz d ∧
      (computeResult c npz d).1.count Event.wrapup = 1 := by
  have htrace1 : (computeResult c npz d).1
      = [Event.fvSetup, Event.ptAdjust] ++ loopEvents c npz d ++
        [Event.wrapup] := by
    rw [computeResult_of_ok hok]
  have hnot : Event.wrapup ∉ [Event.fvSetup, Event.ptAdjust] ++
      loopEvents c npz d := by
    rw [List.mem_append]
    rintro (h | h)
    · simp_all
    · exact wrapup_not_mem_loopEvents h
  refine ⟨htrace1, hnot, ?_⟩
  rw [htrace1, List.count_append, List.count_eq_zero.mpr hnot]
  simp

/-! ## Claims -/

/-- C4, counterexample: with `hydrostatic = false` and `consv_te = 1` the
preamble raises the total-energy error, yet the moist-thermodynamics setup
(`fv_setup`, populating `cvm`, `cappa`, `dp1`) has already executed, so a
partial execution of the preamble's effects has occurred before the raise. -/
theorem compute_preamble_partial_effect :
    (compute_preamble { cfgOk with consv_te := 1 }).2
        = some "compute total energy is not implemented" ∧
      (compute_preamble { cfgOk with consv_te := 1 }).1 = [Event.fvSetup] := by
  decide

/-- C4 (amended): `compute_preamble` raises exactly for the four unsupported
configurations; the hydrostatic error is raised before any effect; the other
three errors are raised after the moist-thermodynamics setup (`fv_setup`)
has executed but before the potential-temperature adjustment; `pt_adjust`
runs exactly when no error is raised. -/
theorem compute_preamble_error_cases (c : Config) :
    ((compute_preamble c).2 ≠ none ↔
      (c.hydrostatic = true ∨ c.consv_te > 0 ∨ (c.rf_fast = false ∧ c.tau ≠ 0) ∨
        (c.adiabatic = true ∧ c.kord_tm > 0))) ∧
    (c.hydrostatic = true →
      compute_preamble c = ([], some "Hydrostatic is not implemented")) ∧
    ((compute_preamble c).2 ≠ none → Event.ptAdjust ∉ (compute_preamble c).1) ∧
    (c.hydrostatic = false → (compute_preamble c).2 ≠ none →
      (compute_preamble c).1 = [Event.fvSetup]) ∧
    ((compute_preamble c).2 = none →
      (compute_preamble c).1 = [Event.fvSetup, Event.ptAdjust]) := by
  unfold compute_preamble
  split_ifs with h1 h2 h3 h4 <;> simp_all

/-- C4 witness: the amended theorem applied at the hydrostatic
configuration: error raised with no effects executed. -/
theorem compute_preamble_error_cases_witness :
    compute_preamble { cfgOk with hydrostatic := true }
      = ([], some "Hydrostatic is not implemented") :=
  (compute_preamble_error_cases { cfgOk with hydrostatic := true }).2.1 rfl

/-- C5: construction fails for `moist_phys = false`, for `nwat ≠ 6`, and
when the tracer guard `not (not inline_q and NQ != 0)` fires; in the
`nwat ≠ 6` case (as well as the `moist_phys` case) the failure happens
before any collaborator or stencil construction: the event list is empty. -/
theorem init_fails_fast (c : Config) :
    ((c.moist_phys = false ∨ c.nwat ≠ 6 ∨ ¬ (c.inline_q = false ∧ NQ ≠ 0)) →
      (DynamicalCore.init c).2 ≠ none) ∧
    (c.nwat ≠ 6 → (DynamicalCore.init c).1 = []) := by
  unfold DynamicalCore.init
  split_ifs <;> simp_all

/-- C5 witness: constructing with `nwat = 5` fails, with no construction
event having occurred. -/
theorem init_fails_fast_witness :
    (DynamicalCore.init { cfgOk with nwat := 5 }).2 ≠ none ∧
      (DynamicalCore.init { cfgOk with nwat := 5 }).1 = [] :=
  ⟨(init_fails_fast { cfgOk with nwat := 5 }).1 (Or.inr (Or.inl (by decide))),
    (init_fails_fast { cfgOk with nwat := 5 }).2 (by decide)⟩

/-- C6: requesting `hydrostatic = true` passes construction (for a
configuration that satisfies the construction guards) and the error is
raised by `compute_preamble`, hence at the first `_compute` call of the
first `step_dynamics` call, before any stage has executed. -/
theorem hydrostatic_defers_to_preamble (c : Config) (npz : Nat) (d : ℚ)
    (hh : c.hydrostatic = true) (hm : c.moist_phys = true) (hn : c.nwat = 6)
    (hq : c.inline_q = false) :
    (DynamicalCore.init c).2 = none ∧
      compute_preamble c = ([], some "Hydrostatic is not implemented") ∧
      computeResult c npz d = ([], some "Hydrostatic is not implemented") := by
  have hp : compute_preamble c = ([], some "Hydrostatic is not implemented") := by
    unfold compute_preamble
    rw [hh]
    simp
  refine ⟨?_, hp, ?_⟩
  · unfold DynamicalCore.init
    simp [hm, hn, hq, NQ]
  · unfold computeResult
    rw [hp]

/-- C6 witness: the concrete hydrostatic configuration constructs fine and
fails at the preamble of the first step. -/
theorem hydrostatic_defers_witness :
    (DynamicalCore.init { cfgOk with hydrostatic := true }).2 = none ∧
      computeResult { cfgOk with hydrostatic := true } 79 1
        = ([], some "Hydrostatic is not implemented") :=
  ⟨(hydrostatic_defers_to_preamble { cfgOk with hydrostatic := true } 79 1
      rfl rfl rfl rfl).1,
    (hydrostatic_defers_to_preamble { cfgOk with hydrostatic := true } 79 1
      rfl rfl rfl rfl).2.2⟩

/-- C7: the `pt_adjust` stencil computes, pointwise at every cell,
`pt_new = pt_old * (1 + dp1) * (1 - q_con) / pkz` in place, and at any cell
with `dp1 = 0` and `q_con = 0` it reduces exactly to `pt_new = pt_old / pkz`. -/
theorem pt_adjust_pointwise {ι : Type} (pkz dp1 q_con pt : ι → ℚ) (i : ι) :
    pt_adjust pkz dp1 q_con pt i
        = pt i * (1 + dp1 i) * (1 - q_con i) / pkz i ∧
      (dp1 i = 0 → q_con i = 0 →
        pt_adjust pkz dp1 q_con pt i = pt i / pkz i) := by
  refine ⟨rfl, fun h1 h2 => ?_⟩
  simp [pt_adjust, h1, h2]

/-- C7 witness: at a concrete cell with `pkz = 2`, `dp1 = 0`, `q_con = 0`,
`pt = 6`, the adjusted value is exactly `6 / 2 = 3`. -/
theorem pt_adjust_pointwise_witness :
    pt_adjust (ι := Fin 1) (fun _ => 2) (fun _ => 0) (fun _ => 0)
      (fun _ => 6) 0 = 3 := by
  have h :=
    (pt_adjust_pointwise (ι := Fin 1) (fun _ => 2) (fun _ => 0) (fun _ => 0)
      (fun _ => 6) 0).2 rfl rfl
  rw [h]
  norm_num

/-- C9: with a sink attached, `step_dynamics` makes exactly two checkpoint
calls, first tagged `FVDynamics-In` carrying the nine named fields of the
state as it was before `_compute` (so nothing is mutated between the In
call and the start of `_compute`), then `FVDynamics-Out` carrying the nine
fields of the post-`_compute` state; with no sink attached, no checkpoint
call is made and the resulting state is identical. -/
theorem step_dynamics_checkpoints {α : Type}
    (compute : DycoreState α → DycoreState α) (s : DycoreState α) :
    (step_dynamics true compute s).1
        = [snapshot "In" s, snapshot "Out" (compute s)] ∧
      (snapshot "In" s).tag = "FVDynamics-In" ∧
      (snapshot "Out" (compute s)).tag = "FVDynamics-Out" ∧
      snapshot "In" s =
        { tag := "FVDynamics-In", u := s.u, v := s.v, w := s.w, delz := s.delz,
          ua := s.ua, va := s.va, uc := s.uc, vc := s.vc, qvapor := s.qvapor } ∧
      (step_dynamics true compute s).2 = compute s ∧
      (step_dynamics false compute s).1 = [] ∧
      (step_dynamics false compute s).2 = (step_dynamics true compute s).2 :=
  ⟨rfl, rfl, rfl, rfl, rfl, rfl, rfl⟩

/-- C10: the construction-time tracer guard reads `inline_q` (against the
fixed `NQ = 8`) and never `z_tracer`: flipping `z_tracer` does not change
the construction outcome, and for configurations passing the two asserts
the construction fails exactly when `inline_q` is set.  With
`z_tracer = false`, every outer iteration still copies `delp` into `dp1`
and runs the acoustic stepper, tracer advection never appears in the trace,
and no error is raised at any point of `_compute`. -/
theorem z_tracer_skips_advection (c : Config) (npz : Nat) (d : ℚ)
    (hz : c.z_tracer = false) :
    (∀ b : Bool, DynamicalCore.init { c with z_tracer := b }
        = DynamicalCore.init c) ∧
      NQ = 8 ∧
      (c.moist_phys = true → c.nwat = 6 →
        ((DynamicalCore.init c).2 = none ↔ c.inline_q = false)) ∧
      (∀ k, iterEvents c npz d k
          = [Event.copyDelpToDp1, Event.acousticDyn (k + 1)] ++
            (if 4 < npz then
              Event.remap (last_step c k) ::
                (if last_step c k then [Event.postRemap d] else [])
            else [])) ∧
      Event.tracerAdv ∉ (computeResult c npz d).1 ∧
      (preambleOk c → (computeResult c npz d).2 = none) := by
  refine ⟨fun b => rfl, rfl, ?_, ?_, ?_, ?_⟩
  · intro hm hn
    unfold DynamicalCore.init
    rw [hm, hn]
    rcases hb : c.inline_q <;> simp [hb, NQ]
  · intro k
    unfold iterEvents dynEvents
    rw [hz]
    simp
  · intro hmem
    rcases computeResult_events_cases c npz d with h | h <;> rw [h] at hmem
    · rcases preamble_events_only c hmem with h' | h' <;> exact Event.noConfusion h'
    · rw [List.mem_append, List.mem_append] at hmem
      rcases hmem with (hmem | hmem) | hmem
      · rcases preamble_events_only c hmem with h' | h' <;>
          exact Event.noConfusion h'
      · rw [mem_loopEvents] at hmem
        obtain ⟨k, -, hk⟩ := hmem
        rw [mem_iterEvents] at hk
        rcases hk with h' | h' | ⟨hzt, -⟩ | ⟨-, h'⟩ | ⟨-, -, h'⟩ <;> simp_all
      · simp_all
  · intro hok
    rw [computeResult_of_ok hok]

/-- C10 witness: a concrete configuration with `z_tracer = false`:
construction succeeds, no tracer-advection event, no error. -/
theorem z_tracer_skips_advection_witness :
    Event.tracerAdv ∉ (computeResult { cfgOk with z_tracer := false } 79 1).1 ∧
      (computeResult { cfgOk with z_tracer := false } 79 1).2 = none :=
  ⟨(z_tracer_skips_advection { cfgOk with z_tracer := false } 79 1 rfl).2.2.2.2.1,
    (z_tracer_skips_advection { cfgOk with z_tracer := false } 79 1 rfl).2.2.2.2.2
      (by decide)⟩

/-- C1: for a completed `_compute` with `k_split ≥ 1` (and the remap stage
enabled, i.e. more than 4 vertical levels, the guard under which the spec
states this), `last_step` is true exactly on the final outer iteration;
the trace decomposes so that on the final iteration `post_remap` — called
with the `da_min` scalar taken from the damping-coefficients grid
metadata — runs immediately after the remap, and `post_remap` occurs
exactly once in the whole call. -/
theorem last_step_and_post_remap (c : Config) (damping : DampingCoefficients)
    (npz : Nat) (hk : 1 ≤ c.k_split) (hnpz : 4 < npz) (hok : preambleOk c) :
    (∀ k, k < c.k_split → (last_step c k = true ↔ k = c.k_split - 1)) ∧
      (computeResult c npz damping.da_min).1
        = [Event.fvSetup, Event.ptAdjust] ++
            ((List.range (c.k_split - 1)).flatMap
              (iterEvents c npz damping.da_min) ++
              (dynEvents c c.k_split ++
                [Event.remap true, Event.postRemap damping.da_min] ++
                [Event.wrapup])) ∧
      (computeResult c npz damping.da_min).1.count
        (Event.postRemap damping.da_min) = 1 := by
  set d := damping.da_min with hd
  have hK : c.k_split - 1 + 1 = c.k_split := Nat.succ_pred_eq_of_pos hk
  have hlaststep : last_step c (c.k_split - 1) = true := by
    simp [last_step]
  have hlast : iterEvents c npz d (c.k_split - 1)
      = dynEvents c c.k_split ++ [Event.remap true, Event.postRemap d] := by
    unfold iterEvents
    rw [if_pos hnpz, hK, hlaststep]
    simp
  have hloop : loopEvents c npz d
      = (List.range (c.k_split - 1)).flatMap (iterEvents c npz d) ++
        (dynEvents c c.k_split ++ [Event.remap true, Event.postRemap d]) := by
    unfold loopEvents
    conv_lhs => rw [← hK, List.range_succ]
    rw [List.flatMap_append]
    simp only [List.flatMap_cons, List.flatMap_nil, List.append_nil]
    rw [hlast]
  have htrace1 : (computeResult c npz d).1
      = [Event.fvSetup, Event.ptAdjust] ++ loopEvents c npz d ++
        [Event.wrapup] := by
    rw [computeResult_of_ok hok]
  have hearly : ((List.range (c.k_split - 1)).flatMap
      (iterEvents c npz d)).count (Event.postRemap d) = 0 := by
    refine List.count_eq_zero.mpr ?_
    intro hmem
    rw [List.mem_flatMap] at hmem
    obtain ⟨k, hk', hmemk⟩ := hmem
    exact postRemap_not_mem_early (List.mem_range.mp hk') hmemk
  have hdyn : (dynEvents c c.k_split).count (Event.postRemap d) = 0 := by
    refine List.count_eq_zero.mpr ?_
    unfold dynEvents
    split_ifs <;> simp
  refine ⟨fun k _ => last_step_iff c k, ?_, ?_⟩
  · rw [htrace1, hloop]
    simp [List.append_assoc]
  · rw [htrace1, hloop]
    simp [List.count_append, hearly, hdyn]

/-- C1 witness: with `k_split = 2`, 79 levels and `da_min = 1`, the
`post_remap` event occurs exactly once in the `_compute` trace. -/
theorem last_step_and_post_remap_witness :
    (computeResult cfgOk 79 dampOk.da_min).1.count
      (Event.postRemap dampOk.da_min) = 1 :=
  (last_step_and_post_remap cfgOk dampOk 79 (by decide) (by decide)
    (by decide)).2.2

/-- C2: with at most 4 vertical levels the remap and `post_remap` events
never occur in the `_compute` trace, whatever `k_split` is, while for a
completed call `wrapup` still runs, exactly once, after the outer loop. -/
theorem shallow_no_remap (c : Config) (npz : Nat) (d : ℚ) (hnpz : npz ≤ 4) :
    (∀ b, Event.remap b ∉ (computeResult c npz d).1) ∧
      (∀ q, Event.postRemap q ∉ (computeResult c npz d).1) ∧
      (preambleOk c →
        (computeResult c npz d).1
            = ([Event.fvSetup, Event.ptAdjust] ++ loopEvents c npz d) ++
              [Event.wrapup] ∧
          (computeResult c npz d).1.count Event.wrapup = 1) := by
  have hnpz' : ¬ 4 < npz := Nat.not_lt.mpr hnpz
  have hshape : ∀ e : Event, e ∈ (computeResult c npz d).1 →
      e = Event.fvSetup ∨ e = Event.ptAdjust ∨ e = Event.copyDelpToDp1 ∨
        (∃ n, e = Event.acousticDyn n) ∨ e = Event.tracerAdv ∨
        e = Event.wrapup := by
    intro e hmem
    rcases computeResult_events_cases c npz d with h | h <;> rw [h] at hmem
    · rcases preamble_events_only c hmem with h' | h' <;> tauto
    · rw [List.mem_append, List.mem_append] at hmem
      rcases hmem with (hmem | hmem) | hmem
      · rcases preamble_events_only c hmem with h' | h' <;> tauto
      · rw [mem_loopEvents] at hmem
        obtain ⟨k, -, hk⟩ := hmem
        rw [mem_iterEvents] at hk
        rcases hk with h' | h' | ⟨-, h'⟩ | ⟨h4, -⟩ | ⟨h4, -, -⟩
        · tauto
        · exact Or.inr (Or.inr (Or.inr (Or.inl ⟨k + 1, h'⟩)))
        · tauto
        · exact absurd h4 hnpz'
        · exact absurd h4 hnpz'
      · rw [List.mem_singleton] at hmem
        tauto
  refine ⟨?_, ?_, ?_⟩
  · intro b hmem
    rcases hshape _ hmem with h | h | h | ⟨n, h⟩ | h | h <;>
      exact Event.noConfusion h
  · intro q hmem
    rcases hshape _ hmem with h | h | h | ⟨n, h⟩ | h | h <;>
      exact Event.noConfusion h
  · intro hok
    exact ⟨(wrapup_trace_once c npz d hok).1, (wrapup_trace_once c npz d hok).2.2⟩

/-- C2 witness: a 3-level configuration: no remap event, and `wrapup`
occurs exactly once. -/
theorem shallow_no_remap_witness :
    Event.remap true ∉ (computeResult cfgOk 3 1).1 ∧
      (computeResult cfgOk 3 1).1.count Event.wrapup = 1 :=
  ⟨(shallow_no_remap cfgOk 3 1 (by decide)).1 true,
    ((shallow_no_remap cfgOk 3 1 (by decide)).2.2 (by decide)).2⟩

/-- C3: for every completed `_compute` (any `k_split`, including 1),
`wrapup` runs exactly once, after the whole outer loop; and the `wrapup`
state transformer — for arbitrary behaviour of its two collaborators —
leaves every state field unchanged except the six water species, the
further fields passed to the negative-tracer adjustment (`qcld`, `pt`,
`delp`, `delz`, `peln`) and the wind diagnostics `ua`, `va`. -/
theorem wrapup_once_and_frame (c : Config) (npz : Nat) (d : ℚ)
    (hok : preambleOk c) :
    (computeResult c npz d).1
        = ([Event.fvSetup, Event.ptAdjust] ++ loopEvents c npz d) ++
          [Event.wrapup] ∧
      Event.wrapup ∉ [Event.fvSetup, Event.ptAdjust] ++ loopEvents c npz d ∧
      (computeResult c npz d).1.count Event.wrapup = 1 ∧
      (∀ (α : Type)
        (negAdj : α → α → α → α → α → α → α → α → α → α → α → NegAdjResult α)
        (c2l : α → α → α → α → α × α) (s : DycoreState α),
        (wrapup negAdj c2l s).u = s.u ∧ (wrapup negAdj c2l s).v = s.v ∧
        (wrapup negAdj c2l s).w = s.w ∧ (wrapup negAdj c2l s).uc = s.uc ∧
        (wrapup negAdj c2l s).vc = s.vc ∧
        (wrapup negAdj c2l s).q_con = s.q_con ∧
        (wrapup negAdj c2l s).pe = s.pe ∧ (wrapup negAdj c2l s).pk = s.pk ∧
        (wrapup negAdj c2l s).pkz = s.pkz ∧
        (wrapup negAdj c2l s).phis = s.phis ∧
        (wrapup negAdj c2l s).omga = s.omga ∧ (wrapup negAdj c2l s).ps = s.ps ∧
        (wrapup negAdj c2l s).mfxd = s.mfxd ∧
        (wrapup negAdj c2l s).mfyd = s.mfyd ∧
        (wrapup negAdj c2l s).cxd = s.cxd ∧
        (wrapup negAdj c2l s).cyd = s.cyd) := by
  refine ⟨(wrapup_trace_once c npz d hok).1, (wrapup_trace_once c npz d hok).2.1,
    (wrapup_trace_once c npz d hok).2.2, ?_⟩
  intro α negAdj c2l s
  exact ⟨rfl, rfl, rfl, rfl, rfl, rfl, rfl, rfl, rfl, rfl, rfl, rfl, rfl, rfl,
    rfl, rfl⟩

/-- C3 witness: with `k_split = 1`, the completed `_compute` trace contains
`wrapup` exactly once. -/
theorem wrapup_once_and_frame_witness :
    (computeResult { cfgOk with k_split := 1 } 79 1).1.count Event.wrapup
      = 1 :=
  (wrapup_once_and_frame { cfgOk with k_split := 1 } 79 1 (by decide)).2.2.1

/-! ## The pfull precompute (C8)

The concrete test point of the spec: `ak = [100000, 80000]`,
`bk = [0, 0.5]`, `p_ref = 100000`. -/

noncomputable def ak0 : Nat → ℝ := fun k => if k = 0 then 100000 else 80000

noncomputable def bk0 : Nat → ℝ := fun k => if k = 0 then 0 else 1 / 2

theorem pfull0_eq : init_pfull ak0 bk0 100000 0 = 30000 / Real.log (13 / 10) := by
  unfold init_pfull ak0 bk0
  norm_num

theorem log_13_10_series_bound :
    |(∑ i ∈ Finset.range 9, ((3 : ℝ) / 13) ^ (i + 1) / (i + 1)) -
        Real.log (13 / 10)|
      ≤ (3 / 13) ^ 10 / (1 - 3 / 13) := by
  have habs : |(3 : ℝ) / 13| = 3 / 13 := abs_of_nonneg (by norm_num)
  have h := Real.abs_log_sub_add_sum_range_le
    (x := 3 / 13) (by rw [habs]; norm_num) 9
  have h13 : (1 : ℝ) - 3 / 13 = 10 / 13 := by norm_num
  have hlog : Real.log ((10 : ℝ) / 13) = - Real.log (13 / 10) := by
    rw [← Real.log_inv]
    norm_num
  rw [h13, hlog, habs, ← sub_eq_add_neg] at h
  exact h

theorem pfull0_bounds :
    114341 < init_pfull ak0 bk0 100000 0 ∧
      init_pfull ak0 bk0 100000 0 < 114348 := by
  rw [pfull0_eq]
  obtain ⟨h1, h2⟩ := abs_le.mp log_13_10_series_bound
  have hS : (∑ i ∈ Finset.range 9, ((3 : ℝ) / 13) ^ (i + 1) / (i + 1))
      = 779027508813 / 2969259824440 := by
    simp [Finset.sum_range_succ]
    norm_num
  have heps : ((3 : ℝ) / 13) ^ 10 / (1 - 3 / 13) = 59049 / 106044993730 := by
    norm_num
  rw [hS, heps] at h1 h2
  have hlogpos : 0 < Real.log ((13 : ℝ) / 10) := Real.log_pos (by norm_num)
  constructor
  · rw [lt_div_iff₀ hlogpos]
    calc (114341 : ℝ) * Real.log (13 / 10)
        ≤ 114341 * (779027508813 / 2969259824440 + 59049 / 106044993730) := by
          have := mul_le_mul_of_nonneg_left (by linarith :
            Real.log ((13 : ℝ) / 10)
              ≤ 779027508813 / 2969259824440 + 59049 / 106044993730)
            (by norm_num : (0 : ℝ) ≤ 114341)
          linarith
      _ < 30000 := by norm_num
  · rw [div_lt_iff₀ hlogpos]
    calc (30000 : ℝ)
        < 114348 * (779027508813 / 2969259824440 - 59049 / 106044993730) := by
          norm_num
      _ ≤ 114348 * Real.log (13 / 10) := by
          have := mul_le_mul_of_nonneg_left (by linarith :
            (779027508813 : ℝ) / 2969259824440 - 59049 / 106044993730
              ≤ Real.log ((13 : ℝ) / 10)) (by norm_num : (0 : ℝ) ≤ 114348)
          linarith

/-- C8, counterexample: at the spec's own concrete input
(`ak = [100000, 80000]`, `bk = [0, 0.5]`, `p_ref = 100000`), level 0 gives
`ph1 = 100000` but `ph2 = 80000 + 0.5 * 100000 = 130000`, not the claimed
`120000`, and `pfull[0] = 30000 / ln(1.3) ≈ 114344.8`, more than 2000 away
from the claimed `109811.4`. -/
theorem pfull_concrete_refuted :
    ak0 0 + bk0 0 * 100000 = 100000 ∧
      ak0 1 + bk0 1 * 100000 = 130000 ∧
      2000 < |init_pfull ak0 bk0 100000 0 - 109811.4| := by
  refine ⟨by norm_num [ak0, bk0], by norm_num [ak0, bk0], ?_⟩
  have h := pfull0_bounds.1
  rw [abs_of_nonneg (by norm_num at h ⊢; linarith)]
  norm_num at h ⊢
  linarith

/-- C8 (amended): for every vertical level `i`, `ph1 = ak[i] + bk[i]*p_ref`,
`ph2 = ak[i+1] + bk[i+1]*p_ref`, `pfull[i] = (ph2 - ph1) / ln(ph2/ph1)`;
and for the concrete input `ak = [100000, 80000]`, `bk = [0, 0.5]`,
`p_ref = 100000`, level 0 yields `ph1 = 100000`, `ph2 = 130000`, and
`pfull[0] = 30000 / ln(1.3) ≈ 114344.8`. -/
theorem pfull_formula_and_value :
    (∀ (ak bk : Nat → ℝ) (p_ref : ℝ) (k : Nat),
      init_pfull ak bk p_ref k =
        ((ak (k + 1) + bk (k + 1) * p_ref) - (ak k + bk k * p_ref)) /
          Real.log ((ak (k + 1) + bk (k + 1) * p_ref) /
            (ak k + bk k * p_ref))) ∧
      ak0 0 + bk0 0 * 100000 = 100000 ∧
      ak0 1 + bk0 1 * 100000 = 130000 ∧
      |init_pfull ak0 bk0 100000 0 - 114344.8| < 4 := by
  refine ⟨fun ak bk p_ref k => rfl, by norm_num [ak0, bk0],
    by norm_num [ak0, bk0], ?_⟩
  obtain ⟨h1, h2⟩ := pfull0_bounds
  rw [abs_lt]
  norm_num at h1 h2 ⊢
  constructor <;> linarith

end FvDyn
